import Mathlib

/-!
# Verification of `motion_extraction.cpp`

A shallow embedding of the motion-extraction program
(`src/motion_extraction.cpp`): a command-line tool that compares each
video frame against a time-offset copy of itself (OpenCV), producing an
output video in which static content cancels to mid-gray and motion
stays visible.

Machine `unsigned char` channel values are modelled as `Nat` (well-formed
frames keep every channel `≤ 255`); OpenCV's rounding of `*.5` values
(`cvRound`, round half to even) is modelled exactly; the floating-point
`cv::pow` in the gamma-table construction is modelled by the exact real
power function `Real.rpow`.
-/

namespace MotionExtraction

/-! ## Data model: pixels and frames

A frame is a 2D grid of 3-channel 8-bit pixels (`cv::Mat` of type
`CV_8UC3`, BGR channel order).  Pixel data is a total function of the
coordinates; `width`/`height` record the `cv::Mat` dimensions. -/

/-- One BGR pixel (`cv::Vec3b`): channel values are `Nat`s, well-formed
when each is `≤ 255`. -/
structure Pix where
  b : Nat
  g : Nat
  r : Nat
deriving DecidableEq

/-- A 3-channel frame (`cv::Mat`, `CV_8UC3`). -/
structure Frame where
  width : Nat
  height : Nat
  px : Nat → Nat → Pix

/-- A single-channel (grayscale) frame (`cv::Mat`, `CV_8UC1`), produced by
`cv::cvtColor(..., COLOR_BGR2GRAY)` in overlay mode. -/
structure GrayFrame where
  width : Nat
  height : Nat
  px : Nat → Nat → Nat

/-- A pixel is well-formed when all three channels fit in an
`unsigned char`. -/
def wfPix (p : Pix) : Prop := p.b ≤ 255 ∧ p.g ≤ 255 ∧ p.r ≤ 255

instance (p : Pix) : Decidable (wfPix p) := by unfold wfPix; infer_instance

/-- The default-constructed `cv::Mat` (`cv::Mat frame, firstFrame;`,
line 217): an empty frame. -/
def emptyMatFrame : Frame := ⟨0, 0, fun _ _ => ⟨0, 0, 0⟩⟩

/-! ## Channel-level primitives -/

/-- Model of `cv::saturate_cast<unsigned char>` on a non-negative value: clamp
to `255`. -/
def saturateUChar (v : Nat) : Nat := if 255 < v then 255 else v

/-- Model of `cv::bitwise_not` on one `unsigned char` channel: `~v = 255 - v`. -/
def invertChan (v : Nat) : Nat := 255 - v

/-- One channel of `cv::addWeighted(src1, 0.5, inverted, 0.5, 0, dst)`:
the exact value `(a + b) / 2` is a multiple of `1/2`, and OpenCV's
`cvRound` rounds the `.5` ties to the nearest even integer, then
saturates to `[0, 255]`. -/
def addWeightedChan (a b : Nat) : Nat :=
  let s := a + b
  saturateUChar
    (if s % 2 = 0 then s / 2
     else if (s / 2) % 2 = 0 then s / 2
     else s / 2 + 1)

/-! ## FrameComparator (`compareFrames`, lines 205-212)

`compareFrames(src1, src2, dst)`: invert `src2` with `cv::bitwise_not`,
then blend with `cv::addWeighted(src1, 0.5, inverted, 0.5, 0, dst)`.
`src1` and `src2` are taken by `const&` and never written; `dst` is a
freshly allocated `cv::Mat` of `src1`'s size and type. -/

/-- Model of `cv::bitwise_not(src2, inverted)`: channel-wise `255 - v`. -/
def bitwiseNot (src : Frame) : Frame :=
  ⟨src.width, src.height, fun x y =>
    ⟨invertChan (src.px x y).b, invertChan (src.px x y).g, invertChan (src.px x y).r⟩⟩

/-- Model of `compareFrames` (lines 205-212). -/
def compareFrames (src1 src2 : Frame) : Frame :=
  let inverted := bitwiseNot src2
  ⟨src1.width, src1.height, fun x y =>
    ⟨addWeightedChan (src1.px x y).b (inverted.px x y).b,
     addWeightedChan (src1.px x y).g (inverted.px x y).g,
     addWeightedChan (src1.px x y).r (inverted.px x y).r⟩⟩

/-! ## Gamma correction (`applyGammaCorrection`, lines 193-202)

The global table `unsigned char gammaLUT[256]` is modelled as a function
argument `lut : Nat → Nat` threaded through the pipeline; `main` fills
it once via `createGammaLUT(gammaLUT, 1/1.1)` (modelled below with exact
real arithmetic). -/

/-- Model of `applyGammaCorrection` (lines 193-202): per-pixel, per-channel table
lookup. -/
def applyGammaCorrection (lut : Nat → Nat) (image : Frame) : Frame :=
  ⟨image.width, image.height, fun x y =>
    ⟨lut (image.px x y).b, lut (image.px x y).g, lut (image.px x y).r⟩⟩

/-! ## Overlay-mode post-processing (`extractMotion`, lines 241-251) -/

/-- One pixel of `cv::cvtColor(..., COLOR_BGR2GRAY)` on `CV_8U` data:
OpenCV's fixed-point luminance,
`(B*1868 + G*9617 + R*4899 + 2^13) >> 14`
(coefficients `B2Y`/`G2Y`/`R2Y` with `yuv_shift = 14`). -/
def luminanceChan (p : Pix) : Nat :=
  (1868 * p.b + 9617 * p.g + 4899 * p.r + 8192) / 16384

/-- Model of `cv::cvtColor(outputFrame, outputFrame, COLOR_BGR2GRAY)` (line 243). -/
def cvtColorBGR2GRAY (src : Frame) : GrayFrame :=
  ⟨src.width, src.height, fun x y => luminanceChan (src.px x y)⟩

/-- Model of `cv::threshold(outputFrame, outputFrame, 129, 255, THRESH_BINARY)`
(line 245): `dst = (src > thresh) ? maxval : 0`. -/
def thresholdBinary (thresh maxval : Nat) (src : GrayFrame) : GrayFrame :=
  ⟨src.width, src.height, fun x y => if thresh < src.px x y then maxval else 0⟩

/-- Model of `cv::borderInterpolate(p, len, BORDER_REFLECT_101)` for the offsets
`-1, 0, +1` used by the 3×3 kernel: reflect without repeating the edge
pixel (`len = 1` collapses to index `0`). -/
def reflect101 (p : Int) (len : Nat) : Nat :=
  if len = 1 then 0
  else if p < 0 then (-p).toNat
  else if (len : Int) ≤ p then (2 * (len : Int) - 2 - p).toNat
  else p.toNat

/-- Normalized 3×3 box-filter output for a neighborhood sum `s`: the exact
mean `s / 9` is never a `.5` tie, so `cvRound` is plain
nearest-integer rounding, `⌊(2*s + 9) / 18⌋`, then saturation. -/
def boxBlurChan (s : Nat) : Nat := saturateUChar ((2 * s + 9) / 18)

/-- Model of `cv::blur(outputFrame, outputFrame, cv::Size(3,3))` (line 247):
normalized 3×3 box filter, anchor at the center, default border
`BORDER_REFLECT_101`. -/
def blur3x3 (src : GrayFrame) : GrayFrame :=
  ⟨src.width, src.height, fun x y =>
    let v : Int → Int → Nat := fun dx dy =>
      src.px (reflect101 ((x : Int) + dx) src.width) (reflect101 ((y : Int) + dy) src.height)
    boxBlurChan
      (v (-1) (-1) + v 0 (-1) + v 1 (-1) +
       v (-1) 0 + v 0 0 + v 1 0 +
       v (-1) 1 + v 0 1 + v 1 1)⟩

/-- Model of `cv::cvtColor(outputFrame, outputFrame, COLOR_GRAY2BGR)` (line 249):
replicate the gray value across the three channels. -/
def cvtColorGRAY2BGR (src : GrayFrame) : Frame :=
  ⟨src.width, src.height, fun x y => ⟨src.px x y, src.px x y, src.px x y⟩⟩

/-- Model of `cv::bitwise_or(frame, outputFrame, outputFrame)` (line 251):
channel-wise bitwise OR. -/
def bitwiseOrFrame (src1 src2 : Frame) : Frame :=
  ⟨src1.width, src1.height, fun x y =>
    ⟨(src1.px x y).b ||| (src2.px x y).b,
     (src1.px x y).g ||| (src2.px x y).g,
     (src1.px x y).r ||| (src2.px x y).r⟩⟩

/-- The overlay branch of `extractMotion` (lines 241-251): grayscale →
binarize at 129 → 3×3 blur → back to BGR → OR with the original current
frame. -/
def overlayCompose (frame outputFrame : Frame) : Frame :=
  bitwiseOrFrame frame
    (cvtColorGRAY2BGR (blur3x3 (thresholdBinary 129 255 (cvtColorBGR2GRAY outputFrame))))

/-- The per-frame post-processing of `extractMotion` (lines 241-254):
overlay compositing when `overlay` is set, otherwise gamma correction of
the comparator output. -/
def postProcessFrame (lut : Nat → Nat) (overlay : Bool) (frame outputFrame : Frame) : Frame :=
  if overlay then overlayCompose frame outputFrame
  else applyGammaCorrection lut outputFrame

/-! ## MotionExtractionPipeline (`extractMotion`, lines 215-258)

The `while (inputVideo.read(frame))` loop, with the `std::queue` frame
buffer made explicit (front of the queue = head of the list).  Reads are
modelled by consuming a list of input frames. -/

/-- The body of `extractMotion`'s read loop.  With `frameDelay > 0` the
current frame is pushed (a `clone`, i.e. by value), the loop `continue`s
while the queue holds fewer than `frameDelay + 1` frames, and otherwise
the current frame is compared against `frameQueue.front()`, which is then
popped.  With `frameDelay == 0` the current frame is compared against the
retained `firstFrame`. -/
def extractMotionLoop (lut : Nat → Nat) (overlay : Bool) (frameDelay : Nat)
    (firstFrame : Frame) (frameQueue : List Frame) : List Frame → List Frame
  | [] => []
  | frame :: rest =>
    if 0 < frameDelay then
      let pushed := frameQueue ++ [frame]
      if pushed.length < frameDelay + 1 then
        extractMotionLoop lut overlay frameDelay firstFrame pushed rest
      else
        postProcessFrame lut overlay frame (compareFrames frame (pushed.headD frame)) ::
          extractMotionLoop lut overlay frameDelay firstFrame pushed.tail rest
    else
      postProcessFrame lut overlay frame (compareFrames frame firstFrame) ::
        extractMotionLoop lut overlay frameDelay firstFrame frameQueue rest

/-- Model of `extractMotion` (lines 215-258).  When `frameDelay == 0` the very
first read (`inputVideo >> firstFrame`, line 221) consumes a frame from
the source to serve as the anchor; on an empty source the anchor read
fails and the loop body never runs.  The returned list is the sequence
of frames written to `outputVideo`. -/
def extractMotion (lut : Nat → Nat) (overlay : Bool) (frameDelay : Nat)
    (frames : List Frame) : List Frame :=
  if frameDelay = 0 then
    match frames with
    | [] => []
    | firstFrame :: rest => extractMotionLoop lut overlay 0 firstFrame [] rest
  else
    extractMotionLoop lut overlay frameDelay emptyMatFrame [] frames

/-! ## Comparison-reference trace

The same read loop as `extractMotionLoop`, recording, for every
comparison performed, the reference frame passed as `compareFrames`'
second argument (the queue front, or the retained anchor).  Used to
state that every comparison consumes original, unmodified frame data:
`compareFrames` takes both frames by `const&` and only writes a freshly
allocated `dst`, and buffered frames are `clone`d copies. -/

/-- Reference-frame trace of `extractMotionLoop`. -/
def extractMotionRefsLoop (frameDelay : Nat) (firstFrame : Frame)
    (frameQueue : List Frame) : List Frame → List Frame
  | [] => []
  | frame :: rest =>
    if 0 < frameDelay then
      let pushed := frameQueue ++ [frame]
      if pushed.length < frameDelay + 1 then
        extractMotionRefsLoop frameDelay firstFrame pushed rest
      else
        pushed.headD frame :: extractMotionRefsLoop frameDelay firstFrame pushed.tail rest
    else
      firstFrame :: extractMotionRefsLoop frameDelay firstFrame frameQueue rest

/-- Reference-frame trace of `extractMotion`: the sequence of reference
frames handed to `compareFrames`, in comparison order. -/
def extractMotionRefs (frameDelay : Nat) (frames : List Frame) : List Frame :=
  if frameDelay = 0 then
    match frames with
    | [] => []
    | firstFrame :: rest => extractMotionRefsLoop 0 firstFrame [] rest
  else
    extractMotionRefsLoop frameDelay emptyMatFrame [] frames

/-! ## GammaTable (`createGammaLUT`, lines 185-190)

`lut[i] = saturate_cast<unsigned char>(pow(i / 255.0, gamma_) * 255.0)`.
The floating-point `cv::pow` is modelled by the exact real power
`Real.rpow`; `saturate_cast<unsigned char>(double)` is `cvRound`
(round half to even) followed by clamping to `[0, 255]`. -/

/-- Model of `cvRound`: round to the nearest integer, ties to even (the default
x86 FPU rounding mode used by OpenCV). -/
noncomputable def cvRound (x : ℝ) : ℤ :=
  if Int.fract x < 1 / 2 then ⌊x⌋
  else if 1 / 2 < Int.fract x then ⌊x⌋ + 1
  else if Even ⌊x⌋ then ⌊x⌋ else ⌊x⌋ + 1

/-- Clamp a rounded integer into the `unsigned char` range `[0, 255]`. -/
def clampUChar (z : ℤ) : Nat := if z < 0 then 0 else if 255 < z then 255 else z.toNat

/-- Entry `i` of the 256-entry table built by `createGammaLUT`
(lines 185-190): `saturate_cast<uchar>(pow(i / 255.0, gamma_) * 255.0)`. -/
noncomputable def createGammaLUT (gamma : ℝ) (i : Nat) : Nat :=
  clampUChar (cvRound ((((i : ℝ) / 255) ^ gamma) * 255))

/-! ## `main` (lines 32-82): offset validation and I/O error handling

`main` is modelled as a pure function of the environment:
whether `cv::VideoCapture` opens (`inputOpened`), the input's frames and
frame rate, whether `cv::VideoWriter` opens (`sinkOpens`), and the
already-parsed arguments (`parseArgs` exits on negative offsets, on
both or neither offset options, and on missing paths, so `framesToSkip`
and `secondsToSkip` are modelled as `Nat`). -/

/-- The `arguments` struct returned by `parseArgs` (lines 16-24). -/
structure Arguments where
  inputPath : String
  outputPath : String
  framesToSkip : Nat
  secondsToSkip : Nat
  framesOption : Bool
  secondsOption : Bool
  overlay : Bool

/-- How a run of `main` ends: which `std::exit(EXIT_FAILURE)` branch was
taken (with the data interpolated into its `std::cerr` message), or
success with the list of frames written to the output file. -/
inductive RunOutcome where
  /-- Line 42: `"Error: Could not open file " << reportedPath`. -/
  | sourceUnavailable (reportedPath : String)
  /-- Line 57: `"Input video only has " << reportedFrameCount <<
      " frame(s). Cannot offset by " << requestedFrames << " frame(s)."`. -/
  | invalidOffsetFrames (reportedFrameCount : Nat) (requestedFrames : Nat)
  /-- Line 66: `"Input video is only " << reportedSeconds <<
      " second(s) long. Cannot offset by " << requestedSeconds <<
      " second(s)."`. -/
  | invalidOffsetSeconds (reportedSeconds : ℤ) (requestedSeconds : Nat)
  /-- Line 75: `"Error: Could not create the output video file " <<
      reportedPath`. -/
  | sinkUnavailable (reportedPath : String)
  /-- Success: `main` returns 0 after `extractMotion` wrote these frames. -/
  | success (outputs : List Frame)

/-- Model of `frameDelay = args.secondsToSkip * fps` (line 64): the `double`
product truncated by the conversion to `unsigned long`. -/
def secondsFrameDelay (secondsToSkip : Nat) (fps : ℚ) : Nat :=
  (⌊(secondsToSkip : ℚ) * fps⌋).toNat

/-- The `frameDelay` value reaching `extractMotion` (line 79): set by the
`-s` branch if `secondsOption`, else by the `-f` branch if
`framesOption`; `parseArgs` guarantees exactly one is set (the `0` for
neither models the uninitialized variable, unreachable after
`parseArgs`). -/
def effectiveFrameDelay (args : Arguments) (fps : ℚ) : Nat :=
  if args.secondsOption then secondsFrameDelay args.secondsToSkip fps
  else if args.framesOption then args.framesToSkip
  else 0

/-- Model of `main` (lines 32-82), after `parseArgs`: open the source (lines
39-44, note the error message prints `args.outputPath`), validate the
offset against the frame count (lines 53-70), open the sink (lines
72-77), then run `extractMotion`. -/
def mainModel (args : Arguments) (inputOpened : Bool) (frames : List Frame)
    (fps : ℚ) (sinkOpens : Bool) (lut : Nat → Nat) : RunOutcome :=
  if inputOpened = false then
    RunOutcome.sourceUnavailable args.outputPath
  else if args.framesOption = true ∧ frames.length < args.framesToSkip then
    RunOutcome.invalidOffsetFrames frames.length args.framesToSkip
  else if args.secondsOption = true ∧ frames.length < secondsFrameDelay args.secondsToSkip fps then
    RunOutcome.invalidOffsetSeconds ⌊(frames.length : ℚ) / fps⌋ args.secondsToSkip
  else if sinkOpens = false then
    RunOutcome.sinkUnavailable args.outputPath
  else
    RunOutcome.success (extractMotion lut args.overlay (effectiveFrameDelay args fps) frames)

/-- Process exit status of an outcome: `EXIT_FAILURE = 1` on every error
branch, `0` on success. -/
def exitStatus : RunOutcome → Nat
  | RunOutcome.success _ => 0
  | _ => 1

/-- Frames written to the output file: none unless the run succeeds. -/
def writtenFrames : RunOutcome → List Frame
  | RunOutcome.success outs => outs
  | _ => []

/-- Whether control reaches the `cv::VideoWriter` constructor (line 72),
i.e. whether the output file is created at all. -/
def writerConstructed (args : Arguments) (inputOpened : Bool)
    (frameCount : Nat) (fps : ℚ) : Bool :=
  inputOpened &&
    !(args.framesOption && decide (frameCount < args.framesToSkip)) &&
    !(args.secondsOption && decide (frameCount < secondsFrameDelay args.secondsToSkip fps))

/-! ## Spec-level predicates and concrete fixtures -/

/-- Holds when `out` is the value `0.5 * cur + 0.5 * (255 - ref)` (equal-weight
blend of `cur` with the inverted `ref`, zero brightness offset) rounded
to a nearest integer: it differs from the exact rational value by at
most `1/2`, and equals it exactly whenever that value is an integer
(so the only freedom is the tie-break on `.5` values). -/
def roundsTo (out cur ref : Nat) : Prop :=
  |(out : ℚ) - (1 / 2 * cur + 1 / 2 * (255 - (ref : ℚ)))| ≤ 1 / 2 ∧
    ((cur + (255 - ref)) % 2 = 0 → (out : ℚ) = 1 / 2 * cur + 1 / 2 * (255 - (ref : ℚ)))

/-- A 1×1 frame of one solid color, for concrete witnesses. -/
def solidFrame (p : Pix) : Frame := ⟨1, 1, fun _ _ => p⟩

/-- Concrete test frame. -/
def frameA : Frame := solidFrame ⟨10, 20, 30⟩

/-- Concrete test frame. -/
def frameB : Frame := solidFrame ⟨200, 100, 50⟩

/-- Concrete all-black test frame. -/
def darkFrame : Frame := solidFrame ⟨0, 0, 0⟩

/-- Concrete all-white test frame. -/
def brightFrame : Frame := solidFrame ⟨255, 255, 255⟩

/-- Concrete parsed arguments (`-f` supplied), for witnesses. -/
def argsFixture : Arguments :=
  { inputPath := "in.mp4", outputPath := "out.mp4", framesToSkip := 5,
    secondsToSkip := 0, framesOption := true, secondsOption := false,
    overlay := false }

/-- Concrete parsed arguments (`-s` supplied), for witnesses. -/
def argsSecondsFixture : Arguments :=
  { inputPath := "in.mp4", outputPath := "out.mp4", framesToSkip := 0,
    secondsToSkip := 5, framesOption := false, secondsOption := true,
    overlay := false }

/-! ## Channel-level lemmas -/

/-- Bitwise OR can only raise a value: `a ≤ a ||| b`. -/
theorem left_le_lor (a b : Nat) : a ≤ a ||| b :=
  Nat.le_of_testBit fun i h => by simp [Nat.testBit_or, h]

/-- The helper `addWeightedChan` computes the blend exactly when the sum is even,
and one of the two neighbors on an odd sum. -/
theorem addWeightedChan_two_mul (a b : Nat) (ha : a ≤ 255) (hb : b ≤ 255) :
    ((a + b) % 2 = 0 ∧ 2 * addWeightedChan a b = a + b) ∨
      ((a + b) % 2 = 1 ∧
        (2 * addWeightedChan a b = a + b - 1 ∨ 2 * addWeightedChan a b = a + b + 1)) := by
  simp only [addWeightedChan, saturateUChar]
  repeat' split
  all_goals omega

/-- Comparing a well-formed channel against itself lands exactly on 128:
`(a + (255 - a)) / 2 = 127.5` and the tie rounds to the even neighbor. -/
theorem addWeightedChan_self_inv (a : Nat) (ha : a ≤ 255) :
    addWeightedChan a (invertChan a) = 128 := by
  simp only [addWeightedChan, saturateUChar, invertChan]
  repeat' split
  all_goals omega

/-- Channel-level statement of the comparator blend formula. -/
theorem addWeightedChan_roundsTo (a b : Nat) (ha : a ≤ 255) (hb : b ≤ 255) :
    roundsTo (addWeightedChan a (invertChan b)) a b := by
  have hinv : invertChan b ≤ 255 := by unfold invertChan; omega
  have h2 := addWeightedChan_two_mul a (invertChan b) ha hinv
  unfold roundsTo
  rw [show invertChan b = 255 - b from rfl] at h2 ⊢
  set o := addWeightedChan a (255 - b) with ho
  set s := a + (255 - b) with hs
  have hsb : s + b = a + 255 := by omega
  have hsq : (s : ℚ) + (b : ℚ) = (a : ℚ) + 255 := by exact_mod_cast hsb
  rcases h2 with ⟨hpar, heq⟩ | ⟨hpar, heq | heq⟩
  · have heqq : 2 * (o : ℚ) = (s : ℚ) := by exact_mod_cast heq
    exact ⟨by rw [abs_le]; constructor <;> linarith, fun _ => by linarith⟩
  · have heq' : 2 * o + 1 = s := by omega
    have heqq : 2 * (o : ℚ) + 1 = (s : ℚ) := by exact_mod_cast heq'
    exact ⟨by rw [abs_le]; constructor <;> linarith, fun hev => by omega⟩
  · have heqq : 2 * (o : ℚ) = (s : ℚ) + 1 := by exact_mod_cast heq
    exact ⟨by rw [abs_le]; constructor <;> linarith, fun hev => by omega⟩

/-! ## Pipeline loop lemmas -/

/-- With `frameDelay == 0` the loop maps every read frame to a
comparison against the retained anchor. -/
theorem extractMotionLoop_zero (lut : Nat → Nat) (ov : Bool) (ff : Frame)
    (q : List Frame) (frames : List Frame) :
    extractMotionLoop lut ov 0 ff q frames =
      frames.map (fun f => postProcessFrame lut ov f (compareFrames f ff)) := by
  induction frames with
  | nil => rfl
  | cons f rest ih => simp [extractMotionLoop, ih]

/-- Loop invariant for `frameDelay > 0`: with `q` already buffered
(`q.length ≤ frameDelay`), the remaining outputs pair each frame of the
input past the fill point with the frame `frameDelay` positions earlier
in `q ++ frames`. -/
theorem extractMotionLoop_pos (lut : Nat → Nat) (ov : Bool) (d : Nat) (ff : Frame)
    (frames : List Frame) (q : List Frame) (hd : 0 < d) (hq : q.length ≤ d) :
    extractMotionLoop lut ov d ff q frames =
      List.zipWith (fun cur ref => postProcessFrame lut ov cur (compareFrames cur ref))
        (frames.drop (d - q.length)) (q ++ frames) := by
  induction frames generalizing q with
  | nil => simp [extractMotionLoop]
  | cons f rest ih =>
    rw [extractMotionLoop, if_pos hd]
    by_cases hc : (q ++ [f]).length < d + 1
    · rw [if_pos hc, ih (q ++ [f]) (by simp at hc ⊢; omega)]
      have h1 : d - q.length = (d - (q ++ [f]).length) + 1 := by simp at hc ⊢; omega
      rw [h1, List.drop_succ_cons]
      simp
    · rw [if_neg hc]
      have hq' : q.length = d := by simp at hc; omega
      obtain ⟨qh, qt, rfl⟩ : ∃ h t, q = h :: t := by
        cases q with
        | nil => simp at hq'; omega
        | cons h t => exact ⟨h, t, rfl⟩
      have hhead : ((qh :: qt) ++ [f]).headD f = qh := by
        rw [List.cons_append, List.headD_cons]
      have htail : ((qh :: qt) ++ [f]).tail = qt ++ [f] := by
        rw [List.cons_append]
        rfl
      rw [hhead, htail, ih (qt ++ [f]) (by simp at hq' ⊢; omega)]
      have h0 : d - (qh :: qt).length = 0 := by omega
      have h1 : d - (qt ++ [f]).length = 0 := by simp at hq' ⊢; omega
      rw [h0, h1, List.drop_zero, List.drop_zero, List.cons_append,
        List.zipWith_cons_cons]
      simp

/-- Running `extractMotion` with a positive delay: outputs are the
`zipWith`-pairing of each frame with the frame `d` positions earlier. -/
theorem extractMotion_pos (lut : Nat → Nat) (ov : Bool) (d : Nat)
    (frames : List Frame) (hd : 0 < d) :
    extractMotion lut ov d frames =
      List.zipWith (fun cur ref => postProcessFrame lut ov cur (compareFrames cur ref))
        (frames.drop d) frames := by
  unfold extractMotion
  rw [if_neg (by omega)]
  rw [extractMotionLoop_pos lut ov d emptyMatFrame frames [] hd (by simp)]
  simp

/-- Reference-trace analogue of `extractMotionLoop_pos`. -/
theorem extractMotionRefsLoop_pos (d : Nat) (ff : Frame) (frames : List Frame)
    (q : List Frame) (hd : 0 < d) (hq : q.length ≤ d) :
    extractMotionRefsLoop d ff q frames =
      (q ++ frames).take (q.length + frames.length - d) := by
  induction frames generalizing q with
  | nil =>
    rw [extractMotionRefsLoop]
    have h0 : q.length + List.length ([] : List Frame) - d = 0 := by simp; omega
    rw [h0, List.take_zero]
  | cons f rest ih =>
    rw [extractMotionRefsLoop, if_pos hd]
    by_cases hc : (q ++ [f]).length < d + 1
    · rw [if_pos hc, ih (q ++ [f]) (by simp at hc ⊢; omega)]
      have h1 : (q ++ [f]).length + rest.length - d = q.length + (f :: rest).length - d := by
        simp
        omega
      rw [h1]
      simp
    · rw [if_neg hc]
      have hq' : q.length = d := by simp at hc; omega
      obtain ⟨qh, qt, rfl⟩ : ∃ h t, q = h :: t := by
        cases q with
        | nil => simp at hq'; omega
        | cons h t => exact ⟨h, t, rfl⟩
      have hhead : ((qh :: qt) ++ [f]).headD f = qh := by
        rw [List.cons_append, List.headD_cons]
      have htail : ((qh :: qt) ++ [f]).tail = qt ++ [f] := by
        rw [List.cons_append]
        rfl
      rw [hhead, htail, ih (qt ++ [f]) (by simp at hq' ⊢; omega)]
      have h1 : (qt ++ [f]).length + rest.length - d = rest.length := by
        simp at hq' ⊢
        omega
      have h2 : (qh :: qt).length + (f :: rest).length - d = rest.length + 1 := by
        simp at hq' ⊢
        omega
      rw [h1, h2, List.cons_append, List.take_succ_cons]
      congr 1
      have : qt ++ [f] ++ rest = qt ++ f :: rest := by simp
      rw [this]

/-- Reference-trace analogue of `extractMotionLoop_zero`. -/
theorem extractMotionRefsLoop_zero (ff : Frame) (q : List Frame)
    (frames : List Frame) :
    extractMotionRefsLoop 0 ff q frames = List.replicate frames.length ff := by
  induction frames with
  | nil => rfl
  | cons f rest ih => simp [extractMotionRefsLoop, ih, List.replicate_succ]

/-! ## Claim theorems: pipeline frame accounting -/

/-- C1 (amended): with `delay == 0`, an empty source yields zero output
frames and normal termination; on a `K`-frame video (`K ≥ 1`) the first
frame is consumed as the retained anchor before the loop, and the
remaining `K - 1` frames each produce one output compared against that
anchor — so a 1-frame video yields `0` outputs, not `1`, and a
non-empty `K`-frame video yields `K - 1` outputs, not `K`. -/
theorem delay_zero_outputs (lut : Nat → Nat) (ov : Bool) (firstFrame : Frame)
    (rest : List Frame) :
    extractMotion lut ov 0 [] = [] ∧
    extractMotion lut ov 0 (firstFrame :: rest) =
      rest.map (fun f => postProcessFrame lut ov f (compareFrames f firstFrame)) ∧
    (extractMotion lut ov 0 (firstFrame :: rest)).length = rest.length := by
  have h2 : extractMotion lut ov 0 (firstFrame :: rest) =
      rest.map (fun f => postProcessFrame lut ov f (compareFrames f firstFrame)) := by
    unfold extractMotion
    rw [if_pos rfl]
    exact extractMotionLoop_zero lut ov firstFrame [] rest
  exact ⟨rfl, h2, by rw [h2]; simp⟩

/-- C1 counterexample: with `delay == 0` on a concrete 1-frame video the
pipeline emits `0` output frames, not the claimed `1` — the only frame
is consumed by the anchor read (`inputVideo >> firstFrame`) before the
processing loop starts. -/
theorem delay_zero_one_frame_counterexample :
    (extractMotion (fun i => i) false 0 [frameA]).length = 0 ∧
    (extractMotion (fun i => i) false 0 [frameA]).length ≠ 1 := by
  have h0 : (extractMotion (fun i => i) false 0 [frameA]).length = 0 := rfl
  exact ⟨h0, by omega⟩

/-- C2: with `delay = d > 0` and `d ≤ K` input frames, the pipeline
emits nothing while fewer than `d` frames have been buffered (any
prefix of length `≤ d` produces no output at all), emits exactly
`K - d` outputs in total, and the `i`-th output (0-based) compares
input frame `d + i` as current against input frame `i` as reference;
consequently the last `d` input frames never produce an output. -/
theorem delay_pos_outputs (lut : Nat → Nat) (ov : Bool) (d : Nat)
    (frames : List Frame) (hd : 0 < d) (hK : d ≤ frames.length) :
    (extractMotion lut ov d frames).length = frames.length - d ∧
    (∀ j, j ≤ d → extractMotion lut ov d (frames.take j) = []) ∧
    (∀ i, i < frames.length - d →
      (extractMotion lut ov d frames).getD i emptyMatFrame =
        postProcessFrame lut ov (frames.getD (d + i) emptyMatFrame)
          (compareFrames (frames.getD (d + i) emptyMatFrame)
            (frames.getD i emptyMatFrame))) := by
  have hE := extractMotion_pos lut ov d frames hd
  refine ⟨?_, ?_, ?_⟩
  · rw [hE, List.length_zipWith, List.length_drop]
    exact min_eq_left (Nat.sub_le _ _)
  · intro j hj
    rw [extractMotion_pos lut ov d _ hd,
      List.drop_eq_nil_of_le
        (le_trans (le_trans (List.length_take_le j frames) hj) le_rfl),
      List.zipWith_nil_left]
  · intro i hi
    rw [hE]
    have hilen : i <
        (List.zipWith (fun cur ref => postProcessFrame lut ov cur (compareFrames cur ref))
          (frames.drop d) frames).length := by
      rw [List.length_zipWith, List.length_drop, min_eq_left (Nat.sub_le _ _)]
      exact hi
    rw [List.getD_eq_getElem _ _ hilen,
      List.getD_eq_getElem frames emptyMatFrame (show d + i < frames.length by omega),
      List.getD_eq_getElem frames emptyMatFrame (show i < frames.length by omega),
      List.getElem_zipWith, List.getElem_drop]

/-- C2 witness: `d = 1` on a concrete 2-frame video. -/
theorem delay_pos_outputs_witness :
    0 < 1 ∧ 1 ≤ [frameA, frameB].length ∧
    ((extractMotion (fun i => i) false 1 [frameA, frameB]).length =
        [frameA, frameB].length - 1 ∧
      (∀ j, j ≤ 1 → extractMotion (fun i => i) false 1 ([frameA, frameB].take j) = []) ∧
      (∀ i, i < [frameA, frameB].length - 1 →
        (extractMotion (fun i => i) false 1 [frameA, frameB]).getD i emptyMatFrame =
          postProcessFrame (fun i => i) false ([frameA, frameB].getD (1 + i) emptyMatFrame)
            (compareFrames ([frameA, frameB].getD (1 + i) emptyMatFrame)
              ([frameA, frameB].getD i emptyMatFrame)))) :=
  ⟨Nat.one_pos, by decide,
    delay_pos_outputs (fun i => i) false 1 [frameA, frameB] Nat.one_pos (by decide)⟩

/-- C10: every comparison consumes original, unmodified input frames.
`compareFrames` takes `src1`/`src2` by `const&` and writes only a
freshly allocated `dst` (lines 205-212), so the reference-frame trace
shows that with `delay = d > 0` the references are exactly the first
`K - d` input frames as read (the `clone`d buffer copies are returned
intact), and with `delay == 0` every one of the `K - 1` comparisons
reuses the same retained first frame, unchanged. -/
theorem comparisons_use_original_frames (d : Nat) (frames : List Frame)
    (firstFrame : Frame) (rest : List Frame) (hd : 0 < d) :
    extractMotionRefs d frames = frames.take (frames.length - d) ∧
    extractMotionRefs 0 (firstFrame :: rest) = List.replicate rest.length firstFrame := by
  constructor
  · unfold extractMotionRefs
    rw [if_neg (by omega)]
    rw [extractMotionRefsLoop_pos d emptyMatFrame frames [] hd (by simp)]
    simp
  · unfold extractMotionRefs
    rw [if_pos rfl]
    exact extractMotionRefsLoop_zero firstFrame [] rest

/-- C10 witness: concrete 2-frame video with `d = 1`, and a delay-0 run
anchored at `frameA`. -/
theorem comparisons_use_original_frames_witness :
    0 < 1 ∧
    extractMotionRefs 1 [frameA, frameB] =
      [frameA, frameB].take ([frameA, frameB].length - 1) ∧
    extractMotionRefs 0 (frameA :: [frameB]) = List.replicate [frameB].length frameA :=
  ⟨Nat.one_pos,
    (comparisons_use_original_frames 1 [frameA, frameB] frameA [frameB] Nat.one_pos).1,
    (comparisons_use_original_frames 1 [frameA, frameB] frameA [frameB] Nat.one_pos).2⟩

/-! ## Claim theorems: comparator and post-processing pixel semantics -/

/-- C3: for same-sized frames, every channel of every pixel of the
comparator output is the rounded value of
`0.5 * current + 0.5 * (255 - reference)` — the equal-weight blend of
the current frame with the inverted reference, zero brightness offset
(`cv::addWeighted(src1, 0.5, inverted, 0.5, 0, dst)` after
`cv::bitwise_not`). -/
theorem compareFrames_blend (src1 src2 : Frame) (x y : Nat)
    (h1 : wfPix (src1.px x y)) (h2 : wfPix (src2.px x y)) :
    roundsTo ((compareFrames src1 src2).px x y).b (src1.px x y).b (src2.px x y).b ∧
    roundsTo ((compareFrames src1 src2).px x y).g (src1.px x y).g (src2.px x y).g ∧
    roundsTo ((compareFrames src1 src2).px x y).r (src1.px x y).r (src2.px x y).r := by
  obtain ⟨hb1, hg1, hr1⟩ := h1
  obtain ⟨hb2, hg2, hr2⟩ := h2
  simp only [compareFrames, bitwiseNot]
  exact ⟨addWeightedChan_roundsTo _ _ hb1 hb2, addWeightedChan_roundsTo _ _ hg1 hg2,
    addWeightedChan_roundsTo _ _ hr1 hr2⟩

/-- C3 witness: concrete pixel values. -/
theorem compareFrames_blend_witness :
    wfPix (frameA.px 0 0) ∧ wfPix (frameB.px 0 0) ∧
    (roundsTo ((compareFrames frameA frameB).px 0 0).b (frameA.px 0 0).b (frameB.px 0 0).b ∧
     roundsTo ((compareFrames frameA frameB).px 0 0).g (frameA.px 0 0).g (frameB.px 0 0).g ∧
     roundsTo ((compareFrames frameA frameB).px 0 0).r (frameA.px 0 0).r (frameB.px 0 0).r) :=
  ⟨by decide, by decide, compareFrames_blend frameA frameB 0 0 (by decide) (by decide)⟩

/-- C4: comparing a frame against itself gives exact mid-gray in every
channel of every pixel — the blend value is exactly `127.5` and
`cvRound`'s tie-to-even lands it on `128` (which is one of the two
values `127`/`128` the claim allows "depending on rounding"). -/
theorem compareFrames_self_midgray (A : Frame) (x y : Nat) (h : wfPix (A.px x y)) :
    (((compareFrames A A).px x y).b = 127 ∨ ((compareFrames A A).px x y).b = 128) ∧
    (((compareFrames A A).px x y).g = 127 ∨ ((compareFrames A A).px x y).g = 128) ∧
    (((compareFrames A A).px x y).r = 127 ∨ ((compareFrames A A).px x y).r = 128) := by
  obtain ⟨hb, hg, hr⟩ := h
  simp only [compareFrames, bitwiseNot]
  exact ⟨Or.inr (addWeightedChan_self_inv _ hb), Or.inr (addWeightedChan_self_inv _ hg),
    Or.inr (addWeightedChan_self_inv _ hr)⟩

/-- C4 witness: concrete frame compared with itself. -/
theorem compareFrames_self_midgray_witness :
    wfPix (frameA.px 0 0) ∧
    ((((compareFrames frameA frameA).px 0 0).b = 127 ∨
        ((compareFrames frameA frameA).px 0 0).b = 128) ∧
      (((compareFrames frameA frameA).px 0 0).g = 127 ∨
        ((compareFrames frameA frameA).px 0 0).g = 128) ∧
      (((compareFrames frameA frameA).px 0 0).r = 127 ∨
        ((compareFrames frameA frameA).px 0 0).r = 128)) :=
  ⟨by decide, compareFrames_self_midgray frameA 0 0 (by decide)⟩

/-- C5: in overlay mode the comparator output is converted to
single-channel luminance and binarized with `cv::threshold(..., 129,
255, THRESH_BINARY)`: luminance `≤ 129` maps to `0` (black), `≥ 130`
maps to `255` (white); and the 3×3 box blur is applied only after this
binarization (the composite is `OR ∘ GRAY2BGR ∘ blur ∘ threshold ∘
BGR2GRAY`). -/
theorem overlay_binarize_then_blur (outputFrame : Frame) (x y : Nat) :
    ((cvtColorBGR2GRAY outputFrame).px x y ≤ 129 →
      (thresholdBinary 129 255 (cvtColorBGR2GRAY outputFrame)).px x y = 0) ∧
    (130 ≤ (cvtColorBGR2GRAY outputFrame).px x y →
      (thresholdBinary 129 255 (cvtColorBGR2GRAY outputFrame)).px x y = 255) ∧
    ∀ frame : Frame, overlayCompose frame outputFrame =
      bitwiseOrFrame frame
        (cvtColorGRAY2BGR (blur3x3 (thresholdBinary 129 255 (cvtColorBGR2GRAY outputFrame)))) := by
  refine ⟨?_, ?_, fun frame => rfl⟩
  · intro h
    simp only [thresholdBinary]
    rw [if_neg (by omega)]
  · intro h
    simp only [thresholdBinary]
    rw [if_pos (by omega)]

/-- C5 witness: a black pixel stays black, a white pixel saturates. -/
theorem overlay_binarize_then_blur_witness :
    (cvtColorBGR2GRAY darkFrame).px 0 0 ≤ 129 ∧
    (thresholdBinary 129 255 (cvtColorBGR2GRAY darkFrame)).px 0 0 = 0 ∧
    130 ≤ (cvtColorBGR2GRAY brightFrame).px 0 0 ∧
    (thresholdBinary 129 255 (cvtColorBGR2GRAY brightFrame)).px 0 0 = 255 :=
  ⟨by decide, (overlay_binarize_then_blur darkFrame 0 0).1 (by decide), by decide,
    (overlay_binarize_then_blur brightFrame 0 0).2.1 (by decide)⟩

/-- C6: in overlay mode the final output is the bitwise OR of the
processed (binarized, blurred, channel-replicated) motion mask with the
original current frame, so every output channel is `≥` the current
frame's original channel value. -/
theorem overlay_or_composite (frame outputFrame : Frame) (x y : Nat) (lut : Nat → Nat) :
    (overlayCompose frame outputFrame).px x y =
      ⟨(frame.px x y).b |||
          (blur3x3 (thresholdBinary 129 255 (cvtColorBGR2GRAY outputFrame))).px x y,
        (frame.px x y).g |||
          (blur3x3 (thresholdBinary 129 255 (cvtColorBGR2GRAY outputFrame))).px x y,
        (frame.px x y).r |||
          (blur3x3 (thresholdBinary 129 255 (cvtColorBGR2GRAY outputFrame))).px x y⟩ ∧
    (frame.px x y).b ≤ ((overlayCompose frame outputFrame).px x y).b ∧
    (frame.px x y).g ≤ ((overlayCompose frame outputFrame).px x y).g ∧
    (frame.px x y).r ≤ ((overlayCompose frame outputFrame).px x y).r ∧
    postProcessFrame lut true frame outputFrame = overlayCompose frame outputFrame := by
  refine ⟨rfl, ?_, ?_, ?_, rfl⟩ <;>
  · simp only [overlayCompose, bitwiseOrFrame, cvtColorGRAY2BGR]
    exact left_le_lor _ _

/-! ## Claim theorems: `main` error handling -/

/-- C7: when the requested frame offset exceeds the input's frame count
(`-f` path, `frameDelay > frameCount`, line 56), the run is rejected
before the `cv::VideoWriter` is constructed: the `InvalidOffset` error
is reported with the video's actual frame count, the process exits with
`EXIT_FAILURE`, and no output file is created or written. -/
theorem invalid_offset_rejected (args : Arguments) (frames : List Frame) (fps : ℚ)
    (sinkOpens : Bool) (lut : Nat → Nat) :
    (args.framesOption = true → frames.length < args.framesToSkip →
      mainModel args true frames fps sinkOpens lut =
        RunOutcome.invalidOffsetFrames frames.length args.framesToSkip ∧
      exitStatus (mainModel args true frames fps sinkOpens lut) = 1 ∧
      writerConstructed args true frames.length fps = false ∧
      writtenFrames (mainModel args true frames fps sinkOpens lut) = []) ∧
    (args.framesOption = false → args.secondsOption = true →
      frames.length < secondsFrameDelay args.secondsToSkip fps →
      mainModel args true frames fps sinkOpens lut =
        RunOutcome.invalidOffsetSeconds ⌊(frames.length : ℚ) / fps⌋ args.secondsToSkip ∧
      exitStatus (mainModel args true frames fps sinkOpens lut) = 1 ∧
      writerConstructed args true frames.length fps = false ∧
      writtenFrames (mainModel args true frames fps sinkOpens lut) = []) := by
  constructor
  · intro hopt hgt
    have hmain : mainModel args true frames fps sinkOpens lut =
        RunOutcome.invalidOffsetFrames frames.length args.framesToSkip := by
      unfold mainModel
      rw [if_neg (by simp), if_pos ⟨hopt, hgt⟩]
    refine ⟨hmain, by rw [hmain]; rfl, ?_, by rw [hmain]; rfl⟩
    unfold writerConstructed
    rw [hopt]
    simp [hgt]
  · intro hfopt hsopt hsgt
    have hmain : mainModel args true frames fps sinkOpens lut =
        RunOutcome.invalidOffsetSeconds ⌊(frames.length : ℚ) / fps⌋ args.secondsToSkip := by
      unfold mainModel
      rw [if_neg (by simp), if_neg (by simp [hfopt]), if_pos ⟨hsopt, hsgt⟩]
    refine ⟨hmain, by rw [hmain]; rfl, ?_, by rw [hmain]; rfl⟩
    unfold writerConstructed
    rw [hfopt, hsopt]
    simp [hsgt]

/-- C7 witness: `-f 5` and `-s 5` (at 30 fps) on an empty (0-frame)
video. -/
theorem invalid_offset_rejected_witness :
    argsFixture.framesOption = true ∧
    List.length ([] : List Frame) < argsFixture.framesToSkip ∧
    (mainModel argsFixture true [] 30 true (fun i => i) =
        RunOutcome.invalidOffsetFrames (List.length ([] : List Frame))
          argsFixture.framesToSkip ∧
      exitStatus (mainModel argsFixture true [] 30 true (fun i => i)) = 1 ∧
      writerConstructed argsFixture true (List.length ([] : List Frame)) 30 = false ∧
      writtenFrames (mainModel argsFixture true [] 30 true (fun i => i)) = []) ∧
    argsSecondsFixture.framesOption = false ∧
    argsSecondsFixture.secondsOption = true ∧
    List.length ([] : List Frame) < secondsFrameDelay argsSecondsFixture.secondsToSkip 30 ∧
    (mainModel argsSecondsFixture true [] 30 true (fun i => i) =
        RunOutcome.invalidOffsetSeconds ⌊((List.length ([] : List Frame)) : ℚ) / 30⌋
          argsSecondsFixture.secondsToSkip ∧
      exitStatus (mainModel argsSecondsFixture true [] 30 true (fun i => i)) = 1 ∧
      writerConstructed argsSecondsFixture true (List.length ([] : List Frame)) 30 = false ∧
      writtenFrames (mainModel argsSecondsFixture true [] 30 true (fun i => i)) = []) :=
  ⟨rfl, by decide,
    (invalid_offset_rejected argsFixture [] 30 true (fun i => i)).1 rfl (by decide),
    rfl, rfl, by norm_num [secondsFrameDelay, argsSecondsFixture],
    (invalid_offset_rejected argsSecondsFixture [] 30 true (fun i => i)).2 rfl rfl
      (by norm_num [secondsFrameDelay, argsSecondsFixture])⟩

/-- C8 (code bug): when the input source cannot be opened, the run is
fatal with `EXIT_FAILURE` and nothing is written — but line 42 prints
`args.outputPath` in the "Could not open file" message, not the failing
*input* path the claim (and the message's own intent) call for: with
input `"in.mp4"` and output `"out.mp4"`, the reported path is
`"out.mp4"`. -/
theorem source_open_error_reports_output_path :
    mainModel argsFixture false [] 30 true (fun i => i) =
      RunOutcome.sourceUnavailable "out.mp4" ∧
    argsFixture.inputPath = "in.mp4" ∧
    exitStatus (mainModel argsFixture false [] 30 true (fun i => i)) = 1 ∧
    writtenFrames (mainModel argsFixture false [] 30 true (fun i => i)) = [] ∧
    "out.mp4" ≠ argsFixture.inputPath :=
  ⟨rfl, rfl, rfl, rfl, by decide⟩

/-! ## Claim theorems: gamma table -/

/-- The rounding `cvRound` never rounds down by more than `1/2`. -/
theorem cvRound_ge (x : ℝ) : x - 1 / 2 ≤ (cvRound x : ℝ) := by
  unfold cvRound
  have hfl : ((⌊x⌋ : ℤ) : ℝ) = x - Int.fract x := by
    rw [Int.self_sub_fract]
  have h0 : 0 ≤ Int.fract x := Int.fract_nonneg x
  have h1 : Int.fract x < 1 := Int.fract_lt_one x
  repeat' split
  all_goals push_cast
  all_goals linarith

/-- The rounding `cvRound` never rounds up by more than `1/2`. -/
theorem cvRound_le (x : ℝ) : (cvRound x : ℝ) ≤ x + 1 / 2 := by
  unfold cvRound
  have hfl : ((⌊x⌋ : ℤ) : ℝ) = x - Int.fract x := by
    rw [Int.self_sub_fract]
  have h0 : 0 ≤ Int.fract x := Int.fract_nonneg x
  have h1 : Int.fract x < 1 := Int.fract_lt_one x
  repeat' split
  all_goals push_cast
  all_goals linarith

/-- C9: for positive `gamma`, the gamma table built by `createGammaLUT`
brightens when `gamma < 1` (`table[i] ≥ i` for all `i ≤ 255`) and
darkens when `gamma > 1` (`table[i] ≤ i`): on `[0, 1]` the power
function with exponent `< 1` lies above the identity and with exponent
`> 1` below it, and rounding to a nearest integer preserves the
comparison with the integer `i`. -/
theorem createGammaLUT_vs_identity (gamma : ℝ) (i : Nat) (hg : 0 < gamma)
    (hi : i ≤ 255) :
    (gamma < 1 → i ≤ createGammaLUT gamma i) ∧
    (1 < gamma → createGammaLUT gamma i ≤ i) := by
  constructor
  · intro hlt
    rcases Nat.eq_zero_or_pos i with h0 | hpos
    · subst h0
      exact Nat.zero_le _
    · set x : ℝ := (i : ℝ) / 255 with hx
      have hi0 : (0 : ℝ) < (i : ℝ) := by exact_mod_cast hpos
      have hx0 : 0 < x := by rw [hx]; positivity
      have hx1 : x ≤ 1 := by
        rw [hx, div_le_one (by norm_num)]
        exact_mod_cast hi
      have hpow : x ^ (1 : ℝ) ≤ x ^ gamma :=
        Real.rpow_le_rpow_of_exponent_ge hx0 hx1 (le_of_lt hlt)
      rw [Real.rpow_one] at hpow
      have hxi : x * 255 = (i : ℝ) := by
        rw [hx]
        field_simp
      have hv : (i : ℝ) ≤ x ^ gamma * 255 := by nlinarith
      have hz := cvRound_ge (x ^ gamma * 255)
      have hzi : (i : ℤ) ≤ cvRound (x ^ gamma * 255) := by
        have hr : (i : ℝ) - 1 < (cvRound (x ^ gamma * 255) : ℝ) := by linarith
        have hr' : (i : ℤ) - 1 < cvRound (x ^ gamma * 255) := by exact_mod_cast hr
        omega
      unfold createGammaLUT clampUChar
      rw [← hx]
      repeat' split
      all_goals omega
  · intro hgt
    rcases Nat.eq_zero_or_pos i with h0 | hpos
    · subst h0
      have hrp : (((0 : Nat) : ℝ) / 255) ^ gamma * 255 = 0 := by
        rw [show ((0 : Nat) : ℝ) / 255 = 0 by norm_num,
          Real.zero_rpow (ne_of_gt hg)]
        ring
      have hc0 : cvRound 0 = 0 := by
        unfold cvRound
        rw [Int.fract_zero]
        norm_num
      unfold createGammaLUT clampUChar
      rw [hrp, hc0]
      norm_num
    · set x : ℝ := (i : ℝ) / 255 with hx
      have hi0 : (0 : ℝ) < (i : ℝ) := by exact_mod_cast hpos
      have hx0 : 0 < x := by rw [hx]; positivity
      have hx1 : x ≤ 1 := by
        rw [hx, div_le_one (by norm_num)]
        exact_mod_cast hi
      have hpow : x ^ gamma ≤ x ^ (1 : ℝ) :=
        Real.rpow_le_rpow_of_exponent_ge hx0 hx1 (le_of_lt hgt)
      rw [Real.rpow_one] at hpow
      have hxi : x * 255 = (i : ℝ) := by
        rw [hx]
        field_simp
      have hv : x ^ gamma * 255 ≤ (i : ℝ) := by nlinarith
      have hz := cvRound_le (x ^ gamma * 255)
      have hzi : cvRound (x ^ gamma * 255) ≤ (i : ℤ) := by
        have hr : (cvRound (x ^ gamma * 255) : ℝ) < (i : ℝ) + 1 := by linarith
        have hr' : cvRound (x ^ gamma * 255) < (i : ℤ) + 1 := by exact_mod_cast hr
        omega
      unfold createGammaLUT clampUChar
      rw [← hx]
      repeat' split
      all_goals omega

/-- C9 witness: a brightening table at `gamma = 1/2`, entry `64`. -/
theorem createGammaLUT_vs_identity_witness :
    0 < (1 / 2 : ℝ) ∧ (64 : Nat) ≤ 255 ∧ (1 / 2 : ℝ) < 1 ∧
    64 ≤ createGammaLUT (1 / 2) 64 :=
  ⟨by norm_num, by decide, by norm_num,
    (createGammaLUT_vs_identity (1 / 2) 64 (by norm_num) (by decide)).1 (by norm_num)⟩

end MotionExtraction
